import Mathlib

/-!
Shallow embedding of the `useCase.ts` library: the `Result` success/failure
wrapper and its chaining protocol (`and_then`, `onSuccess`, `onFailure`),
the `ResultPromise` async adapter, the `Context` input/output snapshot, and
the `UseCase` orchestration (`call` / `_executeWithErrorHandling`).

Modelling conventions:
* JavaScript runtime values are the inductive `JSVal`; a `Context` instance
  is the `JSVal.ctxVal` constructor carrying its `_inputParams`,
  `_outputParams` and the own data properties copied by the constructor.
* A `Record<string, any>` is an association list `List (String × JSVal)`
  in property insertion order; `spread2 a b` is the object spread
  `\x7b...a, ...b\x7d` (keys of `a` in order, values overridden by `b` on
  collision, then the keys of `b` that are new, in order).
* Exceptions are explicit: a chained callback yields a `CbOutcome`
  (normal return of a `Result`, or a thrown value), and `execute` of a use
  case yields an `ExecOutcome`.  `async` is modelled away: an awaited
  computation is its settled outcome, and a `Promise` is its settled state
  (`JSPromise.fulfilled` or `JSPromise.rejected`).
-/

/-- A JavaScript runtime value, as far as this library inspects one.
`error msg` is an `Error` instance whose `.message` is `msg`; `obj fs` is a
plain object with enumerable own properties `fs` in insertion order;
`ctxVal` is an instance of the `Context` class (see `Context.make`). -/
inductive JSVal where
  | undef : JSVal
  | null : JSVal
  | bool : Bool → JSVal
  | num : Int → JSVal
  | str : String → JSVal
  | error : String → JSVal
  | obj : List (String × JSVal) → JSVal
  | ctxVal : JSVal → JSVal → List (String × JSVal) → JSVal

/-- `v` is nullish (`undefined` or `null`), the values that `??` replaces. -/
def nullish : JSVal → Bool
  | JSVal.undef => true
  | JSVal.null => true
  | _ => false

/-- `v` is falsy, the values that `||` replaces (no float NaN in this model). -/
def falsy : JSVal → Bool
  | JSVal.undef => true
  | JSVal.null => true
  | JSVal.bool b => !b
  | JSVal.num n => n == 0
  | JSVal.str s => s == ""
  | _ => false

/-- JavaScript `String(v)` coercion for the values of this model
(`String(new Error(m))` is `"Error: " ++ m`). -/
def jsString : JSVal → String
  | JSVal.undef => "undefined"
  | JSVal.null => "null"
  | JSVal.bool b => if b then "true" else "false"
  | JSVal.num n => toString n
  | JSVal.str s => s
  | JSVal.error m => "Error: " ++ m
  | JSVal.obj _ => "[object Object]"
  | JSVal.ctxVal _ _ _ => "[object Object]"

/-- `v instanceof Error`. -/
def isErrorInstance : JSVal → Bool
  | JSVal.error _ => true
  | _ => false

/-- `error instanceof Error ? error : new Error(String(error))`, the
normalisation applied to caught throwables. -/
def normalizeError (e : JSVal) : JSVal :=
  if isErrorInstance e then e else JSVal.error (jsString e)

/-- Property read on a record: the first binding of key `k`. -/
def lookupRec : List (String × JSVal) → String → Option JSVal
  | [], _ => none
  | p :: rest, k => if p.1 = k then some p.2 else lookupRec rest k

/-- Whether a record has a binding for key `k`. -/
def hasKey : List (String × JSVal) → String → Bool
  | [], _ => false
  | p :: rest, k => if p.1 = k then true else hasKey rest k

/-- Object spread `\x7b...a, ...b\x7d`: every key of `a` in its order, with
`b`'s value when `b` also binds it, followed by the keys of `b` that `a`
does not bind, in `b`'s order. -/
def spread2 (a b : List (String × JSVal)) : List (String × JSVal) :=
  (a.map fun p =>
    match lookupRec b p.1 with
    | some v => (p.1, v)
    | none => p)
  ++ b.filter fun p => !(hasKey a p.1)

/-- The enumerable own properties of a value, as seen by object spread:
objects expose their fields, strings their character index properties,
a `Context` instance its `_inputParams`, `_outputParams` and copied
properties, and other primitives none. -/
def enumOwnProps : JSVal → List (String × JSVal)
  | JSVal.obj fs => fs
  | JSVal.str s =>
      (s.toList.enum.map fun p => (toString p.1, JSVal.str (String.mk [p.2])))
  | JSVal.ctxVal i o props =>
      ("_inputParams", i) :: ("_outputParams", o) :: props
  | _ => []

/-- The `Result<T>` instance fields after the constructor ran. -/
structure Result where
  resultType : String
  data : JSVal
  error : JSVal
  context : List (String × JSVal)
  useCaseClass : String
  _isSuccess : Bool

/-- The `ResultProps<T>` argument object of the `Result` constructor.
An optional property that the caller omitted reads as `JSVal.undef`
(for the `JSVal`-typed fields) or `none` (for the record / string fields,
whose suppliers never pass a nullish value of the right type). -/
structure ResultProps where
  resultType : String
  isSuccess : Bool
  error : JSVal
  data : JSVal
  context : Option (List (String × JSVal))
  useCaseClass : Option String

/-- The `Result` constructor: applies the `?? \x7b\x7d` / `?? ''` defaults. -/
def Result.ofProps (p : ResultProps) : Result :=
  { resultType := p.resultType
    _isSuccess := p.isSuccess
    data := if nullish p.data then JSVal.obj [] else p.data
    error := if nullish p.error then JSVal.obj [] else p.error
    useCaseClass := p.useCaseClass.getD ""
    context := p.context.getD [] }

/-- `Result#getValue`. -/
def Result.getValue (r : Result) : JSVal := r.data

/-- `Result#isSuccess`. -/
def Result.isSuccess (r : Result) : Bool := r._isSuccess

/-- `Result#isFailure`. -/
def Result.isFailure (r : Result) : Bool := !r._isSuccess

/-- `Result#getType`. -/
def Result.getType (r : Result) : String := r.resultType

/-- `Result#getError`. -/
def Result.getError (r : Result) : JSVal := r.error

/-- The `Success` factory (`value`, `context`, `useCaseClass` arguments;
an omitted argument is `JSVal.undef` resp. `none`). -/
def Success (value : JSVal) (context : Option (List (String × JSVal)))
    (useCaseClass : Option String) : Result :=
  Result.ofProps
    { resultType := "SUCCESS"
      isSuccess := true
      data := value
      error := JSVal.undef
      context := context
      useCaseClass := useCaseClass }

/-- The `Failure` factory (`error`, `failureType`, `context`,
`useCaseClass` arguments). -/
def Failure (error : JSVal) (failureType : String)
    (context : Option (List (String × JSVal)))
    (useCaseClass : Option String) : Result :=
  Result.ofProps
    { resultType := failureType
      isSuccess := false
      error := error
      data := JSVal.undef
      context := context
      useCaseClass := useCaseClass }

/-- `Failure` with its `failureType` argument omitted, taking the
default `'FAILURE'`. -/
def FailureDefault (error : JSVal) : Result :=
  Failure error "FAILURE" none none

/-- Outcome of a chained callback: a normal(ly resolving) return of a
`Result`, or a throw / rejection with a value. -/
inductive CbOutcome where
  | ret : Result → CbOutcome
  | thrown : JSVal → CbOutcome

/-- `Result#mergeContext(result, mergeable)` (private helper): all fields
from `result`, context `\x7b...mergeable.context, ...result.context\x7d`. -/
def mergeContext (result mergeable : Result) : Result :=
  { resultType := result.resultType
    _isSuccess := result._isSuccess
    error := result.error
    data := result.data
    useCaseClass := result.useCaseClass
    context := spread2 mergeable.context result.context }

/-- `Result#and_then(fn)`: short-circuit a failure through the `Failure`
factory; otherwise run the callback on `(this.getValue(), this)`, merging
contexts on normal return and converting a throw into an
`UNEXPECTED_ERROR` failure. -/
def Result.and_then (self : Result) (fn : JSVal → Result → CbOutcome) : Result :=
  if self.isFailure then
    Failure self.error self.resultType (some self.context) (some self.useCaseClass)
  else
    match fn self.getValue self with
    | CbOutcome.ret result => mergeContext result self
    | CbOutcome.thrown e =>
        Failure (normalizeError e) "UNEXPECTED_ERROR"
          (some (spread2 self.context [("rawError", e)]))
          (some self.useCaseClass)

/-- `Result#execUseCase(fn)`, the deprecated alias of `and_then`. -/
def Result.execUseCase (self : Result) (fn : JSVal → Result → CbOutcome) : Result :=
  self.and_then fn

/-- `Result#onSuccess(f)`: first component is the invocation trace — the
`(data, res)` argument pair passed to `f`, when `f` is invoked — and the
second component is the return value (`this`). -/
def Result.onSuccess (self : Result) : Option (JSVal × Result) × Result :=
  if self._isSuccess then (some (self.getValue, self), self) else (none, self)

/-- `Result#onFailure(f, failureType)`: first component is the invocation
trace — the `(error, res)` argument pair passed to `f`, when `f` is
invoked — and the second component is the return value (`this`). -/
def Result.onFailure (self : Result) (failureType : String) :
    Option (JSVal × Result) × Result :=
  if self.isFailure && self.resultType == failureType then
    (some (self.getError, self), self)
  else (none, self)

/-- `Result#onFailure(f)` with its `failureType` argument omitted, taking
the default `'FAILURE'`. -/
def Result.onFailureDefault (self : Result) : Option (JSVal × Result) × Result :=
  self.onFailure "FAILURE"

/-- A settled JavaScript promise: fulfilled with a value or rejected with
a throwable. -/
inductive JSPromise (α : Type) where
  | fulfilled : α → JSPromise α
  | rejected : JSVal → JSPromise α

/-- The `ResultPromise<T>` wrapper around a `Promise<Result<T>>`. -/
structure ResultPromise where
  promise : JSPromise Result

/-- `ResultPromise#and_then(fn)`:
`new ResultPromise(this.promise.then(result => result.and_then(fn)))`.
`then` propagates a rejection and maps a fulfilment through
`Result#and_then` (whose promise always resolves). -/
def ResultPromise.and_then (self : ResultPromise)
    (fn : JSVal → Result → CbOutcome) : ResultPromise :=
  match self.promise with
  | JSPromise.fulfilled r => ⟨JSPromise.fulfilled (r.and_then fn)⟩
  | JSPromise.rejected e => ⟨JSPromise.rejected e⟩

/-- `ResultPromise#toResult()`: awaits the wrapped promise. -/
def ResultPromise.toResult (self : ResultPromise) : JSPromise Result :=
  self.promise

/-- The member names already present on a fresh `Context` instance when
its property-copy loop runs the `key in this` test: the own fields
assigned before the loop, the `Context.prototype` members, and the
`Object.prototype` members. -/
def contextMemberKeys : List String :=
  ["_inputParams", "_outputParams", "getInput", "getOutput", "constructor",
   "toString", "toLocaleString", "valueOf", "hasOwnProperty", "isPrototypeOf",
   "propertyIsEnumerable", "__defineGetter__", "__defineSetter__",
   "__lookupGetter__", "__lookupSetter__", "__proto__"]

/-- The property descriptor `(writable, configurable, enumerable)` that the
`Context` constructor passes to `Object.defineProperty` for every copied
property. -/
def contextPropDescriptor : Bool × Bool × Bool := (false, true, true)

/-- The `Context` constructor `new Context(input, data)`:
`_inputParams = input ?? \x7b\x7d`, `_outputParams = data ?? \x7b\x7d`, and
the own data properties of `\x7b...(input || \x7b\x7d), ...(data || \x7b\x7d)\x7d`
copied in order, skipping every key for which `key in this` already holds. -/
def Context.make (input data : JSVal) : JSVal :=
  let inputParams := if nullish input then JSVal.obj [] else input
  let outputParams := if nullish data then JSVal.obj [] else data
  let properties :=
    spread2 (enumOwnProps (if falsy input then JSVal.obj [] else input))
      (enumOwnProps (if falsy data then JSVal.obj [] else data))
  JSVal.ctxVal inputParams outputParams
    (properties.filter fun p => !(contextMemberKeys.contains p.1))

/-- `Context#getInput()` (only ever applied to a `Context` instance). -/
def JSVal.getInput : JSVal → JSVal
  | JSVal.ctxVal i _ _ => i
  | _ => JSVal.undef

/-- `Context#getOutput()` (only ever applied to a `Context` instance). -/
def JSVal.getOutput : JSVal → JSVal
  | JSVal.ctxVal _ o _ => o
  | _ => JSVal.undef

/-- The own data properties a `Context` instance received from its
property-copy loop (only ever applied to a `Context` instance). -/
def JSVal.ctxProps : JSVal → List (String × JSVal)
  | JSVal.ctxVal _ _ props => props
  | _ => []

/-- Outcome of awaiting a concrete use case's `execute`: a resolved
`Result`, or a throw / rejection with a value. -/
inductive ExecOutcome where
  | ret : Result → ExecOutcome
  | thrown : JSVal → ExecOutcome

/-- A concrete use case: `name` is `this.constructor.name` and `execute`
is the subclass's awaited `execute(input)` (an omitted input is
`JSVal.undef`). -/
structure UseCase where
  name : String
  execute : JSVal → ExecOutcome

/-- `BaseUseCase#_executeWithErrorHandling(params)` (identically the body
of the `call(params)` variant that returns `Promise<Result>` directly):
rewrap an inner failure with this class's name, rewrap an inner success
with the single-entry `Context` map, and convert a throw into an
`UNEXPECTED_ERROR` failure. -/
def UseCase.callResult (u : UseCase) (params : JSVal) : Result :=
  match u.execute params with
  | ExecOutcome.ret result =>
      if result.isFailure then
        Failure result.getError result.getType (some result.context) (some u.name)
      else
        Success result.getValue
          (some [(u.name, Context.make params result.getValue)])
          (some u.name)
  | ExecOutcome.thrown e =>
      Failure (normalizeError e) "UNEXPECTED_ERROR"
        (some [("rawError", e)]) (some u.name)

/-- `BaseUseCase#call(params)`: wraps `_executeWithErrorHandling(params)`
(which always resolves) in a `ResultPromise`. -/
def UseCase.call (u : UseCase) (params : JSVal) : ResultPromise :=
  ⟨JSPromise.fulfilled (u.callResult params)⟩

/-! ### Record lemmas shared by several claims -/

/-- Lookup distributes over list append, first list first. -/
theorem lookupRec_append (xs ys : List (String × JSVal)) (k : String) :
    lookupRec (xs ++ ys) k
      = match lookupRec xs k with
        | some v => some v
        | none => lookupRec ys k := by
  induction xs with
  | nil => simp [lookupRec]
  | cons p xs ih =>
      by_cases h : p.1 = k
      · simp [lookupRec, h]
      · simp [lookupRec, h, ih]

/-- Lookup after the override map of `spread2`. -/
theorem lookupRec_map_override (a b : List (String × JSVal)) (k : String) :
    lookupRec (a.map fun p =>
      match lookupRec b p.1 with
      | some v => (p.1, v)
      | none => p) k
      = match lookupRec a k with
        | some v =>
            (match lookupRec b k with
             | some w => some w
             | none => some v)
        | none => none := by
  induction a with
  | nil => simp [lookupRec]
  | cons p a ih =>
      by_cases h : p.1 = k
      · cases hb : lookupRec b p.1 with
        | none => rw [← h]; simp [lookupRec, hb]
        | some w => rw [← h]; simp [lookupRec, hb]
      · cases hb : lookupRec b p.1 with
        | none => simp [lookupRec, h, hb, ih]
        | some w => simp [lookupRec, h, hb, ih]

/-- Lookup in a list filtered by a predicate on keys. -/
theorem lookupRec_filter (q : String → Bool) (l : List (String × JSVal)) (k : String) :
    lookupRec (l.filter fun p => q p.1) k
      = if q k then lookupRec l k else none := by
  induction l with
  | nil => simp [lookupRec]
  | cons p l ih =>
      by_cases hk : p.1 = k
      · subst hk
        by_cases hq : q p.1
        · simp [List.filter_cons, hq, lookupRec]
        · simp [List.filter_cons, hq, lookupRec, ih]
      · by_cases hq : q p.1
        · simp [List.filter_cons, hq, lookupRec, hk, ih]
        · simp [List.filter_cons, hq, lookupRec, hk, ih]

/-- `hasKey` agrees with the definedness of `lookupRec`. -/
theorem hasKey_eq_isSome (l : List (String × JSVal)) (k : String) :
    hasKey l k = (lookupRec l k).isSome := by
  induction l with
  | nil => simp [hasKey, lookupRec]
  | cons p l ih =>
      by_cases h : p.1 = k
      · simp [hasKey, lookupRec, h]
      · simp [hasKey, lookupRec, h, ih]

/-- Lookup in an object spread: a key bound by `b` reads `b`'s value,
any other key reads `a`'s binding. -/
theorem lookupRec_spread2 (a b : List (String × JSVal)) (k : String) :
    lookupRec (spread2 a b) k
      = match lookupRec b k with
        | some v => some v
        | none => lookupRec a k := by
  unfold spread2
  rw [lookupRec_append, lookupRec_map_override,
    lookupRec_filter (fun s => !(hasKey a s))]
  cases hb : lookupRec b k <;> cases ha : lookupRec a k <;>
    simp [hasKey_eq_isSome, ha, hb]

/-- The `Result` constructor never leaves a nullish `error` field. -/
theorem ofProps_error_not_nullish (p : ResultProps) :
    nullish (Result.ofProps p).error = false := by
  unfold Result.ofProps
  dsimp only
  split
  · rfl
  · simpa using Bool.not_eq_true _ ▸ (by assumption : ¬ nullish p.error = true)

/-- The `Result` constructor never leaves a nullish `data` field. -/
theorem ofProps_data_not_nullish (p : ResultProps) :
    nullish (Result.ofProps p).data = false := by
  unfold Result.ofProps
  dsimp only
  split
  · rfl
  · simpa using Bool.not_eq_true _ ▸ (by assumption : ¬ nullish p.data = true)

/-- Normalising a throwable never yields a nullish value. -/
theorem normalizeError_not_nullish (e : JSVal) :
    nullish (normalizeError e) = false := by
  cases e <;> rfl

/-! ### Claim theorems -/

/-- C1: `and_then` on a failure Result never invokes its callback (the
outcome is the same for every callback) and returns a failure Result whose
`error`, `resultType`, `context` and `useCaseClass` equal the originals. -/
theorem c1_and_then_failure_short_circuits (r : Result)
    (f : JSVal → Result → CbOutcome)
    (hfail : r.isFailure = true) (herr : nullish r.error = false) :
    (∀ g, r.and_then f = r.and_then g) ∧
    (r.and_then f).isFailure = true ∧
    (r.and_then f).error = r.error ∧
    (r.and_then f).resultType = r.resultType ∧
    (r.and_then f).context = r.context ∧
    (r.and_then f).useCaseClass = r.useCaseClass := by
  have hs : r._isSuccess = false := by
    simpa [Result.isFailure] using hfail
  refine ⟨fun g => ?_, ?_, ?_, ?_, ?_, ?_⟩ <;>
    simp [Result.and_then, hs, Failure, Result.ofProps, herr,
      Result.isFailure]

/-- C1 witness: a concrete failure short-circuits with all four fields
preserved. -/
theorem c1_witness :
    ((Failure (JSVal.error "oops") "FAILURE" (some [("k", JSVal.num 1)])
        (some "UC")).and_then
      (fun _ _ => CbOutcome.ret (Success (JSVal.num 9) none none))).error
      = JSVal.error "oops" ∧
    ((Failure (JSVal.error "oops") "FAILURE" (some [("k", JSVal.num 1)])
        (some "UC")).and_then
      (fun _ _ => CbOutcome.ret (Success (JSVal.num 9) none none))).context
      = [("k", JSVal.num 1)] := by
  have h := c1_and_then_failure_short_circuits
    (Failure (JSVal.error "oops") "FAILURE" (some [("k", JSVal.num 1)])
      (some "UC"))
    (fun _ _ => CbOutcome.ret (Success (JSVal.num 9) none none)) rfl rfl
  exact ⟨h.2.2.1, h.2.2.2.2.1⟩

/-- C2: `and_then` on a success whose callback returns `next` normally
yields a Result with all fields from `next` except the context, which is
the spread of the original context then `next`'s context (keys of `next`
win); concretely, `Success(a, \x7bx:1\x7d)` chained into
`Success(b, \x7bx:2, y:3\x7d)` yields context `\x7bx:2, y:3\x7d`. -/
theorem c2_and_then_success_merges_context (r next : Result)
    (f : JSVal → Result → CbOutcome)
    (hs : r.isSuccess = true) (hf : f r.getValue r = CbOutcome.ret next) :
    (r.and_then f).resultType = next.resultType ∧
    (r.and_then f).isSuccess = next.isSuccess ∧
    (r.and_then f).data = next.data ∧
    (r.and_then f).error = next.error ∧
    (r.and_then f).useCaseClass = next.useCaseClass ∧
    (r.and_then f).context = spread2 r.context next.context ∧
    (∀ k v, lookupRec next.context k = some v →
        lookupRec (r.and_then f).context k = some v) ∧
    ((Success (JSVal.str "a") (some [("x", JSVal.num 1)]) none).and_then
        (fun _ _ => CbOutcome.ret
          (Success (JSVal.str "b")
            (some [("x", JSVal.num 2), ("y", JSVal.num 3)]) none))).context
      = [("x", JSVal.num 2), ("y", JSVal.num 3)] := by
  have hnotfail : r.isFailure = false := by
    simp [Result.isFailure]
    simpa [Result.isSuccess] using hs
  refine ⟨?_, ?_, ?_, ?_, ?_, ?_, ?_, rfl⟩ <;>
    simp [Result.and_then, hnotfail, hf, mergeContext, Result.isSuccess,
      lookupRec_spread2]
  intro k v hv
  simp [Result.and_then, hnotfail, hf, mergeContext, lookupRec_spread2, hv]

/-- C2 witness: the concrete merged-context example, by applying the claim
theorem at `Success("a", \x7bx:1\x7d)`. -/
theorem c2_witness :
    ((Success (JSVal.str "a") (some [("x", JSVal.num 1)]) none).and_then
        (fun _ _ => CbOutcome.ret
          (Success (JSVal.str "b")
            (some [("x", JSVal.num 2), ("y", JSVal.num 3)]) none))).context
      = [("x", JSVal.num 2), ("y", JSVal.num 3)] := by
  have h := c2_and_then_success_merges_context
    (Success (JSVal.str "a") (some [("x", JSVal.num 1)]) none)
    (Success (JSVal.str "b") (some [("x", JSVal.num 2), ("y", JSVal.num 3)])
      none)
    (fun _ _ => CbOutcome.ret
      (Success (JSVal.str "b") (some [("x", JSVal.num 2), ("y", JSVal.num 3)])
        none))
    rfl rfl
  exact h.2.2.2.2.2.2.2

/-- C3: `and_then` on a success whose callback throws `e` catches the
exception (returning a Result, never rethrowing) and yields a failure with
`resultType = "UNEXPECTED_ERROR"`, context `\x7b...self.context,
rawError: e\x7d` holding the original thrown value, the original
`useCaseClass`, and error `e` when `e` is an `Error`, else an `Error`
whose message is the stringified value. -/
theorem c3_and_then_catches_callback_throw (r : Result) (e : JSVal)
    (f : JSVal → Result → CbOutcome)
    (hs : r.isSuccess = true) (hf : f r.getValue r = CbOutcome.thrown e) :
    (r.and_then f).isFailure = true ∧
    (r.and_then f).resultType = "UNEXPECTED_ERROR" ∧
    (r.and_then f).context = spread2 r.context [("rawError", e)] ∧
    lookupRec (r.and_then f).context "rawError" = some e ∧
    (r.and_then f).useCaseClass = r.useCaseClass ∧
    (r.and_then f).error
      = (if isErrorInstance e then e else JSVal.error (jsString e)) := by
  have hS : r._isSuccess = true := by
    simpa [Result.isSuccess] using hs
  have hmain : r.and_then f
      = Failure (normalizeError e) "UNEXPECTED_ERROR"
          (some (spread2 r.context [("rawError", e)]))
          (some r.useCaseClass) := by
    simp [Result.and_then, Result.isFailure, hS, hf]
  refine ⟨?_, ?_, ?_, ?_, ?_, ?_⟩ <;> rw [hmain]
  · simp [Failure, Result.ofProps, Result.isFailure]
  · simp [Failure, Result.ofProps]
  · simp [Failure, Result.ofProps]
  · simp [Failure, Result.ofProps, lookupRec_spread2, lookupRec]
  · simp [Failure, Result.ofProps]
  · simp [Failure, Result.ofProps, normalizeError_not_nullish]
    simp [normalizeError]

/-- C3 witness: a callback throwing the plain string `"boom"` yields
`getError().message === "boom"` and `context.rawError` holding `"boom"`. -/
theorem c3_witness :
    ((Success (JSVal.str "go") none none).and_then
        (fun _ _ => CbOutcome.thrown (JSVal.str "boom"))).error
      = JSVal.error "boom" ∧
    lookupRec ((Success (JSVal.str "go") none none).and_then
        (fun _ _ => CbOutcome.thrown (JSVal.str "boom"))).context "rawError"
      = some (JSVal.str "boom") ∧
    ((Success (JSVal.str "go") none none).and_then
        (fun _ _ => CbOutcome.thrown (JSVal.str "boom"))).resultType
      = "UNEXPECTED_ERROR" := by
  have h := c3_and_then_catches_callback_throw
    (Success (JSVal.str "go") none none) (JSVal.str "boom")
    (fun _ _ => CbOutcome.thrown (JSVal.str "boom")) rfl rfl
  refine ⟨?_, h.2.2.2.1, h.2.1⟩
  rw [h.2.2.2.2.2]
  rfl

/-- C4: `onSuccess` invokes its callback on `(value, self)` exactly when
the Result is a success, `onFailure` invokes its callback on
`(error, self)` exactly when the Result is a failure with `resultType`
equal to the match type (default `"FAILURE"`), and both always return the
original Result itself. -/
theorem c4_observation_hooks (r : Result) (t : String) :
    (r.onSuccess).2 = r ∧
    (r.onFailure t).2 = r ∧
    (r.isSuccess = true → (r.onSuccess).1 = some (r.getValue, r)) ∧
    (r.isSuccess = false → (r.onSuccess).1 = none) ∧
    (r.isFailure = true → r.resultType = t →
        (r.onFailure t).1 = some (r.getError, r)) ∧
    (¬(r.isFailure = true ∧ r.resultType = t) → (r.onFailure t).1 = none) ∧
    r.onFailureDefault = r.onFailure "FAILURE" := by
  refine ⟨?_, ?_, ?_, ?_, ?_, ?_, rfl⟩
  · unfold Result.onSuccess
    split <;> rfl
  · unfold Result.onFailure
    split <;> rfl
  · intro h
    have hS : r._isSuccess = true := by simpa [Result.isSuccess] using h
    simp [Result.onSuccess, hS]
  · intro h
    have hS : r._isSuccess = false := by simpa [Result.isSuccess] using h
    simp [Result.onSuccess, hS]
  · intro h1 h2
    simp [Result.onFailure, h1, h2]
  · intro h
    by_cases h1 : r.isFailure = true <;> by_cases h2 : r.resultType = t
    · exact absurd ⟨h1, h2⟩ h
    · simp [Result.onFailure, h1, h2]
    · simp [Result.onFailure, h1]
    · simp [Result.onFailure, h1]

/-- C4 witness: the hooks applied to a concrete success and a concrete
failure of type `"FAILURE"`. -/
theorem c4_witness :
    ((Success (JSVal.num 2) none none).onSuccess).1
      = some (JSVal.num 2, Success (JSVal.num 2) none none) ∧
    ((Success (JSVal.num 2) none none).onSuccess).2
      = Success (JSVal.num 2) none none ∧
    ((FailureDefault (JSVal.error "e")).onFailure "FAILURE").1
      = some (JSVal.error "e", FailureDefault (JSVal.error "e")) ∧
    ((FailureDefault (JSVal.error "e")).onFailure "OTHER").1 = none := by
  have h1 := c4_observation_hooks (Success (JSVal.num 2) none none) "FAILURE"
  have h2 := c4_observation_hooks (FailureDefault (JSVal.error "e")) "FAILURE"
  have h3 := c4_observation_hooks (FailureDefault (JSVal.error "e")) "OTHER"
  refine ⟨h1.2.2.1 rfl, h1.1, h2.2.2.2.2.1 rfl rfl, h3.2.2.2.2.2.1 ?_⟩
  intro hc
  exact absurd hc.2 (by decide)

/-- C5: the `Success` / `Failure` factories and the pure accessors: for an
actual (non-nullish) value `v`, `Success(v)` is a success of type
`"SUCCESS"` holding `v`; for an actual error `e` and tag `t`,
`Failure(e, t)` is a failure of type `t` holding `e`; and the opposite
accessor returns the empty-object sentinel on each. -/
theorem c5_factories_and_accessors (v e : JSVal) (t : String)
    (hv : nullish v = false) (he : nullish e = false) :
    (Success v none none).isSuccess = true ∧
    (Success v none none).getValue = v ∧
    (Success v none none).getType = "SUCCESS" ∧
    (Failure e t none none).isFailure = true ∧
    (Failure e t none none).getType = t ∧
    (Failure e t none none).getError = e ∧
    (Success v none none).getError = JSVal.obj [] ∧
    (Failure e t none none).getValue = JSVal.obj [] := by
  refine ⟨rfl, ?_, rfl, rfl, rfl, ?_, rfl, rfl⟩ <;>
    simp [Success, Failure, Result.ofProps, Result.getValue, Result.getError,
      hv, he]

/-- C5 witness: the factories evaluated at a concrete value, error and
tag. -/
theorem c5_witness :
    (Success (JSVal.num 7) none none).getValue = JSVal.num 7 ∧
    (Failure (JSVal.error "x") "TAG" none none).getType = "TAG" ∧
    (Failure (JSVal.error "x") "TAG" none none).getError = JSVal.error "x" ∧
    (Success (JSVal.num 7) none none).getError = JSVal.obj [] ∧
    (Failure (JSVal.error "x") "TAG" none none).getValue = JSVal.obj [] := by
  have h := c5_factories_and_accessors (JSVal.num 7) (JSVal.error "x") "TAG"
    rfl rfl
  exact ⟨h.2.1, h.2.2.2.2.1, h.2.2.2.2.2.1, h.2.2.2.2.2.2.1,
    h.2.2.2.2.2.2.2⟩

/-- C6: when a concrete use case's `execute` resolves to a success Result,
`call` resolves (never rejects) to a success Result holding the same
value, labelled with the operation's name, whose context is the
single-entry map binding that name to `new Context(input, value)`,
whatever context the inner Result carried. -/
theorem c6_call_success_rewrap (u : UseCase) (params : JSVal) (r : Result)
    (h1 : u.execute params = ExecOutcome.ret r)
    (h2 : r.isSuccess = true) (h3 : nullish r.data = false) :
    (u.call params).promise = JSPromise.fulfilled (u.callResult params) ∧
    (u.callResult params).isSuccess = true ∧
    (u.callResult params).getValue = r.getValue ∧
    (u.callResult params).resultType = "SUCCESS" ∧
    (u.callResult params).useCaseClass = u.name ∧
    (u.callResult params).context
      = [(u.name, Context.make params r.getValue)] := by
  have hS : r._isSuccess = true := by
    simpa [Result.isSuccess] using h2
  have hmain : u.callResult params
      = Success r.getValue
          (some [(u.name, Context.make params r.getValue)]) (some u.name) := by
    simp [UseCase.callResult, h1, Result.isFailure, hS]
  refine ⟨rfl, ?_, ?_, ?_, ?_, ?_⟩ <;> rw [hmain] <;>
    simp [Success, Result.ofProps, Result.isSuccess, Result.getValue, h3]

/-- C6 witness: an operation resolving to `Success(4)` on input `"test"`,
mirroring the repository's test, rewrapped by `call`. -/
theorem c6_witness :
    ((UseCase.mk "SuccessUseCase"
        (fun _ => ExecOutcome.ret (Success (JSVal.num 4) none none))).callResult
      (JSVal.str "test")).getValue = JSVal.num 4 ∧
    ((UseCase.mk "SuccessUseCase"
        (fun _ => ExecOutcome.ret (Success (JSVal.num 4) none none))).callResult
      (JSVal.str "test")).useCaseClass = "SuccessUseCase" ∧
    ((UseCase.mk "SuccessUseCase"
        (fun _ => ExecOutcome.ret (Success (JSVal.num 4) none none))).callResult
      (JSVal.str "test")).context
      = [("SuccessUseCase",
          Context.make (JSVal.str "test") (JSVal.num 4))] ∧
    (Context.make (JSVal.str "test") (JSVal.num 4)).getInput
      = JSVal.str "test" ∧
    (Context.make (JSVal.str "test") (JSVal.num 4)).getOutput
      = JSVal.num 4 := by
  have h := c6_call_success_rewrap
    (UseCase.mk "SuccessUseCase"
      (fun _ => ExecOutcome.ret (Success (JSVal.num 4) none none)))
    (JSVal.str "test") (Success (JSVal.num 4) none none) rfl rfl rfl
  exact ⟨h.2.2.1, h.2.2.2.2.1, h.2.2.2.2.2, rfl, rfl⟩

/-- C7: when a concrete use case's `execute` throws or rejects with `e`,
`call` still resolves (the exception is not rethrown) to a failure Result
of type `"UNEXPECTED_ERROR"` with context `\x7brawError: e\x7d` carrying
the original thrown value, the operation's name as `useCaseClass`, and
error `e` when `e` is an `Error`, else an `Error` whose message is the
stringified value. -/
theorem c7_call_catches_execute_throw (u : UseCase) (params e : JSVal)
    (h : u.execute params = ExecOutcome.thrown e) :
    (u.call params).promise = JSPromise.fulfilled (u.callResult params) ∧
    (u.callResult params).isFailure = true ∧
    (u.callResult params).resultType = "UNEXPECTED_ERROR" ∧
    (u.callResult params).context = [("rawError", e)] ∧
    (u.callResult params).useCaseClass = u.name ∧
    (u.callResult params).error
      = (if isErrorInstance e then e else JSVal.error (jsString e)) := by
  have hmain : u.callResult params
      = Failure (normalizeError e) "UNEXPECTED_ERROR"
          (some [("rawError", e)]) (some u.name) := by
    simp [UseCase.callResult, h]
  refine ⟨rfl, ?_, ?_, ?_, ?_, ?_⟩ <;> rw [hmain]
  · simp [Failure, Result.ofProps, Result.isFailure]
  · simp [Failure, Result.ofProps]
  · simp [Failure, Result.ofProps]
  · simp [Failure, Result.ofProps]
  · simp [Failure, Result.ofProps, normalizeError_not_nullish]
    simp [normalizeError]

/-- C7 witness: an operation throwing the plain string `"string error"`,
mirroring the repository's test, converted at the boundary. -/
theorem c7_witness :
    ((UseCase.mk "ThrowingNonErrorUseCase"
        (fun _ => ExecOutcome.thrown (JSVal.str "string error"))).callResult
      (JSVal.str "test")).error = JSVal.error "string error" ∧
    ((UseCase.mk "ThrowingNonErrorUseCase"
        (fun _ => ExecOutcome.thrown (JSVal.str "string error"))).callResult
      (JSVal.str "test")).resultType = "UNEXPECTED_ERROR" ∧
    ((UseCase.mk "ThrowingNonErrorUseCase"
        (fun _ => ExecOutcome.thrown (JSVal.str "string error"))).callResult
      (JSVal.str "test")).context
      = [("rawError", JSVal.str "string error")] := by
  have h := c7_call_catches_execute_throw
    (UseCase.mk "ThrowingNonErrorUseCase"
      (fun _ => ExecOutcome.thrown (JSVal.str "string error")))
    (JSVal.str "test") (JSVal.str "string error") rfl
  refine ⟨?_, h.2.2.1, h.2.2.2.1⟩
  rw [h.2.2.2.2.2]
  rfl

/-- C8: the `Context` constructor exposes every enumerable own property of
`input` then `output` as its own properties (output winning on key
collision), skips every key already present on the instance, substitutes
an empty mapping for a nullish argument, stores each copied property with
descriptor `(writable := false, configurable := true, enumerable := true)`,
and `getInput` / `getOutput` return the original arguments. -/
theorem c8_context_construction (fi fo : List (String × JSVal)) :
    (Context.make (JSVal.obj fi) (JSVal.obj fo)).getInput = JSVal.obj fi ∧
    (Context.make (JSVal.obj fi) (JSVal.obj fo)).getOutput = JSVal.obj fo ∧
    (Context.make (JSVal.obj fi) (JSVal.obj fo)).ctxProps
      = (spread2 fi fo).filter (fun p => !(contextMemberKeys.contains p.1)) ∧
    (∀ k, contextMemberKeys.contains k = false →
        lookupRec (Context.make (JSVal.obj fi) (JSVal.obj fo)).ctxProps k
          = match lookupRec fo k with
            | some v => some v
            | none => lookupRec fi k) ∧
    (∀ k, contextMemberKeys.contains k = true →
        lookupRec (Context.make (JSVal.obj fi) (JSVal.obj fo)).ctxProps k
          = none) ∧
    (∀ v, nullish v = true →
        Context.make v (JSVal.obj fo)
            = Context.make (JSVal.obj []) (JSVal.obj fo) ∧
        Context.make (JSVal.obj fi) v
            = Context.make (JSVal.obj fi) (JSVal.obj [])) ∧
    contextPropDescriptor = (false, true, true) := by
  have hfilter : ∀ k,
      lookupRec ((spread2 fi fo).filter
        fun p => !(contextMemberKeys.contains p.1)) k
        = if !(contextMemberKeys.contains k) then lookupRec (spread2 fi fo) k
          else none :=
    fun k => lookupRec_filter (fun s => !(contextMemberKeys.contains s))
      (spread2 fi fo) k
  refine ⟨rfl, rfl, rfl, ?_, ?_, ?_, rfl⟩
  · intro k hk
    show lookupRec ((spread2 fi fo).filter
      fun p => !(contextMemberKeys.contains p.1)) k = _
    rw [hfilter k, hk]
    simp [lookupRec_spread2]
  · intro k hk
    show lookupRec ((spread2 fi fo).filter
      fun p => !(contextMemberKeys.contains p.1)) k = _
    rw [hfilter k, hk]
    rfl
  · intro v hv
    cases v <;> simp [nullish] at hv <;> exact ⟨rfl, rfl⟩

/-- C8 witness: a concrete construction with a shared key, mirroring the
repository's test: the output value wins, the input-only key is exposed,
and the originals are returned by the accessors. -/
theorem c8_witness :
    (Context.make
        (JSVal.obj [("id", JSVal.str "123"), ("shared", JSVal.str "input")])
        (JSVal.obj [("shared", JSVal.str "output")])).getInput
      = JSVal.obj [("id", JSVal.str "123"), ("shared", JSVal.str "input")] ∧
    lookupRec (Context.make
        (JSVal.obj [("id", JSVal.str "123"), ("shared", JSVal.str "input")])
        (JSVal.obj [("shared", JSVal.str "output")])).ctxProps "shared"
      = some (JSVal.str "output") ∧
    lookupRec (Context.make
        (JSVal.obj [("id", JSVal.str "123"), ("shared", JSVal.str "input")])
        (JSVal.obj [("shared", JSVal.str "output")])).ctxProps "id"
      = some (JSVal.str "123") := by
  have h := c8_context_construction
    [("id", JSVal.str "123"), ("shared", JSVal.str "input")]
    [("shared", JSVal.str "output")]
  refine ⟨h.1, ?_, ?_⟩
  · rw [h.2.2.2.1 "shared" rfl]
    rfl
  · rw [h.2.2.2.1 "id" rfl]
    rfl

/-- C9: `ResultPromise#and_then` refines `Result#and_then`: on a wrapper
whose promise fulfils with `r`, its promise fulfils with exactly
`r.and_then fn`; in particular when `r` is a failure the callback is never
consulted and the resolved Result keeps the original error. -/
theorem c9_resultPromise_and_then_refines (r : Result)
    (f : JSVal → Result → CbOutcome) :
    ((ResultPromise.mk (JSPromise.fulfilled r)).and_then f).promise
      = JSPromise.fulfilled (r.and_then f) ∧
    (r.isFailure = true → nullish r.error = false →
      (∀ g, (ResultPromise.mk (JSPromise.fulfilled r)).and_then f
          = (ResultPromise.mk (JSPromise.fulfilled r)).and_then g) ∧
      (r.and_then f).error = r.error ∧
      (r.and_then f).isFailure = true) := by
  refine ⟨rfl, fun hfail herr => ?_⟩
  have hs : r._isSuccess = false := by
    simpa [Result.isFailure] using hfail
  refine ⟨fun g => ?_, ?_, ?_⟩ <;>
    simp [ResultPromise.and_then, Result.and_then, hs, Failure,
      Result.ofProps, herr, Result.isFailure]

/-- C9 witness: an already-failed wrapped Result chained through the
wrapper keeps the original error, whatever the callback would return. -/
theorem c9_witness :
    ((ResultPromise.mk (JSPromise.fulfilled
        (FailureDefault (JSVal.error "orig")))).and_then
      (fun _ _ => CbOutcome.ret (Success (JSVal.num 1) none none))).promise
      = JSPromise.fulfilled
          ((FailureDefault (JSVal.error "orig")).and_then
            (fun _ _ => CbOutcome.ret (Success (JSVal.num 1) none none))) ∧
    ((FailureDefault (JSVal.error "orig")).and_then
        (fun _ _ => CbOutcome.ret (Success (JSVal.num 1) none none))).error
      = JSVal.error "orig" := by
  have h := c9_resultPromise_and_then_refines
    (FailureDefault (JSVal.error "orig"))
    (fun _ _ => CbOutcome.ret (Success (JSVal.num 1) none none))
  refine ⟨h.1, ?_⟩
  rw [(h.2 rfl rfl).2.1]
  rfl

/-- C10: the failure short-circuit of `and_then` rebuilds the Result
through the `Failure` factory, which drops any data payload the failure
carried: the chained Result's `getValue()` is the empty-object
sentinel. -/
theorem c10_and_then_failure_drops_data (r : Result)
    (f : JSVal → Result → CbOutcome) (h : r.isFailure = true) :
    (r.and_then f).getValue = JSVal.obj [] ∧
    (r.and_then f).isFailure = true := by
  have hs : r._isSuccess = false := by
    simpa [Result.isFailure] using h
  constructor <;>
    simp [Result.and_then, hs, Failure, Result.ofProps, Result.getValue,
      Result.isFailure, nullish]

/-- C10 witness: a failure constructed directly through the `Result`
constructor with a data payload loses it across `and_then`. -/
theorem c10_witness :
    (Result.ofProps
        { resultType := "FAILURE"
          isSuccess := false
          error := JSVal.error "e"
          data := JSVal.num 5
          context := none
          useCaseClass := none }).getValue = JSVal.num 5 ∧
    ((Result.ofProps
        { resultType := "FAILURE"
          isSuccess := false
          error := JSVal.error "e"
          data := JSVal.num 5
          context := none
          useCaseClass := none }).and_then
      (fun _ _ => CbOutcome.ret (Success (JSVal.num 1) none none))).getValue
      = JSVal.obj [] := by
  refine ⟨rfl, ?_⟩
  exact (c10_and_then_failure_drops_data
    (Result.ofProps
      { resultType := "FAILURE"
        isSuccess := false
        error := JSVal.error "e"
        data := JSVal.num 5
        context := none
        useCaseClass := none })
    (fun _ _ => CbOutcome.ret (Success (JSVal.num 1) none none)) rfl).1
